import Mathlib

/-!
Shallow embedding of the book-release-tracker core
(`src/book_monitor.py`, `src/scrapers/book_notification.py`,
`src/scrapers/base_book_scraper.py`) and verification of the frozen claims.

Conventions of the embedding:
* Python `datetime.date` objects are triples of naturals; the `date(y, m, d)`
  constructor, which raises `ValueError` on out-of-range fields, is `mkDate?`.
* Python values that can be a string, a date, `None` or something else
  (the `release_date` slots and the argument of `parse_release_date`)
  are modelled by the inductive `PyVal`.
* Fallible operations return `Option`; a caught exception is `none`.
-/

/-- A calendar date, as Python's `datetime.date` (a valid one satisfies
`dateValid`; `mkDate?` is the checked constructor). -/
structure Date where
  year : Nat
  month : Nat
  day : Nat
deriving DecidableEq, Repr

/-- Gregorian leap-year rule, as Python's `calendar.isleap` /
`datetime`'s internal rule. -/
def isLeap (y : Nat) : Bool :=
  y % 4 = 0 && (y % 100 != 0 || y % 400 = 0)

/-- Days in a month of a given year. -/
def daysInMonth (y m : Nat) : Nat :=
  if m = 2 then (if isLeap y then 29 else 28)
  else if m = 4 || m = 6 || m = 9 || m = 11 then 30
  else 31

/-- Python `date(y, m, d)` accepts exactly these fields
(`MINYEAR = 1`, `MAXYEAR = 9999`). -/
def dateValid (y m d : Nat) : Bool :=
  1 ≤ y && y ≤ 9999 && 1 ≤ m && m ≤ 12 && 1 ≤ d && d ≤ daysInMonth y m

/-- The `date(y, m, d)` constructor: `none` models a raised `ValueError`. -/
def mkDate? (y m d : Nat) : Option Date :=
  if dateValid y m d then some ⟨y, m, d⟩ else none

/-- Python date comparison `a <= b` (lexicographic on (year, month, day)). -/
def dateLe (a b : Date) : Bool :=
  if a.year ≠ b.year then a.year < b.year
  else if a.month ≠ b.month then a.month < b.month
  else a.day ≤ b.day

/-- Python date comparison `a < b`. -/
def dateLt (a b : Date) : Bool :=
  if a.year ≠ b.year then a.year < b.year
  else if a.month ≠ b.month then a.month < b.month
  else a.day < b.day

/-- Days in all months strictly before month `m` of year `y`. -/
def daysBeforeMonth (y m : Nat) : Nat :=
  (List.range m).foldl (fun acc k => if 1 ≤ k then acc + daysInMonth y k else acc) 0

/-- Python `date.toordinal`: day number with 0001-01-01 ↦ 1. -/
def toOrdinal (d : Date) : Nat :=
  365 * (d.year - 1) + (d.year - 1) / 4 - (d.year - 1) / 100 + (d.year - 1) / 400
    + daysBeforeMonth d.year d.month + d.day

/-- Helper for `fromOrdinal`: walk the months of year `y` (fuel-bounded). -/
def findMonth (y : Nat) : Nat → Nat → Nat → Nat × Nat
  | 0, m, rem => (m, rem)
  | f + 1, m, rem =>
    let dim := daysInMonth y m
    if rem < dim then (m, rem) else findMonth y f (m + 1) (rem - dim)

/-- Inverse of `toordinal`, following CPython's `_ord2ymd`. -/
def fromOrdinal (n : Nat) : Date :=
  let n1 := n - 1
  let n400 := n1 / 146097
  let r1 := n1 % 146097
  let n100 := r1 / 36524
  let r2 := r1 % 36524
  let n4 := r2 / 1461
  let r3 := r2 % 1461
  let n1y := r3 / 365
  let r4 := r3 % 365
  let year := n400 * 400 + n100 * 100 + n4 * 4 + n1y + 1
  if n1y = 4 ∨ n100 = 4 then ⟨year - 1, 12, 31⟩
  else
    let mr := findMonth year 11 1 r4
    ⟨year, mr.1, mr.2 + 1⟩

/-- `d - timedelta(days := n)` for the uses in the monitor
(7-day reminder, 180-day retention cutoff). -/
def subDays (d : Date) (n : Nat) : Date :=
  fromOrdinal (toOrdinal d - n)

/-- Zero-padded decimal rendering of width `w`. -/
def padNum (w n : Nat) : String :=
  let s := toString n
  String.mk (List.replicate (w - s.length) '0') ++ s

/-- `str(date)` / `date.isoformat()`: `YYYY-MM-DD`. -/
def dateToIso (d : Date) : String :=
  padNum 4 d.year ++ "-" ++ padNum 2 d.month ++ "-" ++ padNum 2 d.day

example : subDays ⟨2025, 12, 9⟩ 7 = ⟨2025, 12, 2⟩ := by decide
example : subDays ⟨2025, 3, 1⟩ 7 = ⟨2025, 2, 22⟩ := by decide
example : subDays ⟨2024, 3, 1⟩ 1 = ⟨2024, 2, 29⟩ := by decide
example : subDays ⟨2025, 10, 12⟩ 180 = ⟨2025, 4, 15⟩ := by decide
example : dateToIso ⟨2025, 1, 2⟩ = "2025-01-02" := by decide

/-! ### Text utilities (`base_book_scraper.clean_text`, `str.lower`) -/

/-- Split a character list into maximal non-whitespace words,
as Python's `str.split()` with no argument. -/
def splitWords (cur : List Char) : List Char → List (List Char)
  | [] => if cur.isEmpty then [] else [cur.reverse]
  | c :: t =>
    if c.isWhitespace then
      if cur.isEmpty then splitWords [] t else cur.reverse :: splitWords [] t
    else splitWords (c :: cur) t

/-- `BaseBookScraper.clean_text`: `' '.join(text.split())` (the trailing
`strip` is a no-op after the join); falsy input gives `""`. -/
def clean_text (s : String) : String :=
  String.intercalate " " ((splitWords [] s.toList).map fun w => String.mk w)

/-- Python `str.lower`, restricted to the ASCII range the data uses. -/
def lowerStr (s : String) : String :=
  String.mk (s.toList.map Char.toLower)

/-- Numeric value of a digit string (`int(...)` on a `\d+` capture). -/
def digitsToNat (cs : List Char) : Nat :=
  cs.foldl (fun n c => 10 * n + (c.toNat - 48)) 0

/-- Word character of the regex class `\w` (ASCII fragment). -/
def isWordChar (c : Char) : Bool :=
  c.isAlpha || c.isDigit || c = '_'

/-! ### A small matching engine for the seven regexes of
`BookNotificationScraper.parse_release_date`, in continuation style.
`re.search` semantics: try every start position left to right; at a
position, quantifiers are greedy with backtracking. -/

/-- Exactly `n` characters satisfying `p` (`\d{4}` is `takeExact Char.isDigit 4`). -/
def takeExact (p : Char → Bool) : Nat → List Char → Option (List Char × List Char)
  | 0, l => some ([], l)
  | _ + 1, [] => none
  | n + 1, c :: t =>
    if p c then (takeExact p n t).map (fun wr => (c :: wr.1, wr.2)) else none

/-- `(\d{4})`: four digits, then continue with the capture and the rest. -/
def re_d4 (l : List Char) (k : List Char → List Char → Option α) : Option α :=
  (takeExact Char.isDigit 4 l).bind fun wr => k wr.1 wr.2

/-- `(\d{1,2})`: greedy — try two digits, backtrack to one. -/
def re_d12 (l : List Char) (k : List Char → List Char → Option α) : Option α :=
  match l with
  | c1 :: c2 :: t =>
    if c1.isDigit then
      (if c2.isDigit then k [c1, c2] t else none) <|> k [c1] (c2 :: t)
    else none
  | [c1] => if c1.isDigit then k [c1] [] else none
  | [] => none

/-- A literal character. -/
def re_lit (c : Char) (l : List Char) (k : List Char → Option α) : Option α :=
  match l with
  | x :: t => if x = c then k t else none
  | [] => none

/-- `\s+`: at least one whitespace character.  Every use in the source is
followed by `\d` or `\w`, which are disjoint from `\s`, so consuming the
maximal whitespace run is exact. -/
def re_ws1 (l : List Char) (k : List Char → Option α) : Option α :=
  match l with
  | c :: t => if c.isWhitespace then k (t.dropWhile Char.isWhitespace) else none
  | [] => none

/-- `,?`: greedy optional comma, with backtracking. -/
def re_optComma (l : List Char) (k : List Char → Option α) : Option α :=
  match l with
  | ',' :: t => k t <|> k l
  | _ => k l

/-- Downward length search for `(\w{3,9})`: try the length `n` prefix of the
word-character run, backtracking to shorter lengths, minimum 3. -/
def tryWordLens (run l : List Char) (k : List Char → List Char → Option α) :
    Nat → Option α
  | 0 => none
  | 1 => none
  | 2 => none
  | n + 3 => k (run.take (n + 3)) (l.drop (n + 3)) <|> tryWordLens run l k (n + 2)

/-- `(\w{3,9})`: greedy, between 3 and 9 word characters. -/
def re_w39 (l : List Char) (k : List Char → List Char → Option α) : Option α :=
  let run := l.takeWhile isWordChar
  tryWordLens run l k (min 9 run.length)

/-- Leftmost-match search: try the matcher at every start position. -/
def reSearch (m : List Char → Option α) : List Char → Option α
  | [] => m []
  | l@(_ :: t) => m l <|> reSearch m t

/-- Pattern `(\d{4})-(\d{1,2})-(\d{1,2})` at one position. -/
def pIsoAt (l : List Char) : Option (List Char × List Char × List Char) :=
  re_d4 l fun g1 r => re_lit '-' r fun r => re_d12 r fun g2 r =>
    re_lit '-' r fun r => re_d12 r fun g3 _ => some (g1, g2, g3)

/-- Pattern `(\d{1,2})/(\d{1,2})/(\d{4})` at one position. -/
def pSlashAt (l : List Char) : Option (List Char × List Char × List Char) :=
  re_d12 l fun g1 r => re_lit '/' r fun r => re_d12 r fun g2 r =>
    re_lit '/' r fun r => re_d4 r fun g3 _ => some (g1, g2, g3)

/-- Pattern `(\d{1,2})-(\d{1,2})-(\d{4})` at one position. -/
def pDashAt (l : List Char) : Option (List Char × List Char × List Char) :=
  re_d12 l fun g1 r => re_lit '-' r fun r => re_d12 r fun g2 r =>
    re_lit '-' r fun r => re_d4 r fun g3 _ => some (g1, g2, g3)

/-- Pattern `(\w{3,9})\s+(\d{1,2}),?\s+(\d{4})` at one position. -/
def pMonthDayYearAt (l : List Char) : Option (List Char × List Char × List Char) :=
  re_w39 l fun g1 r => re_ws1 r fun r => re_d12 r fun g2 r =>
    re_optComma r fun r => re_ws1 r fun r => re_d4 r fun g3 _ => some (g1, g2, g3)

/-- Pattern `(\d{1,2})\s+(\w{3,9})\s+(\d{4})` at one position. -/
def pDayMonthYearAt (l : List Char) : Option (List Char × List Char × List Char) :=
  re_d12 l fun g1 r => re_ws1 r fun r => re_w39 r fun g2 r =>
    re_ws1 r fun r => re_d4 r fun g3 _ => some (g1, g2, g3)

/-- Pattern `(\w{3,9})\s+(\d{4})` at one position. -/
def pMonthYearAt (l : List Char) : Option (List Char × List Char) :=
  re_w39 l fun g1 r => re_ws1 r fun r => re_d4 r fun g2 _ => some (g1, g2)

/-- Pattern `(\d{4})` at one position. -/
def pYearAt (l : List Char) : Option (List Char) :=
  re_d4 l fun g _ => some g

/-- `BookNotificationScraper._parse_month_name`: fixed lookup table of
full and abbreviated English month names, lower-cased first. -/
def parse_month_name (s : String) : Option Nat :=
  let m := lowerStr s
  if m = "january" ∨ m = "jan" then some 1
  else if m = "february" ∨ m = "feb" then some 2
  else if m = "march" ∨ m = "mar" then some 3
  else if m = "april" ∨ m = "apr" then some 4
  else if m = "may" then some 5
  else if m = "june" ∨ m = "jun" then some 6
  else if m = "july" ∨ m = "jul" then some 7
  else if m = "august" ∨ m = "aug" then some 8
  else if m = "september" ∨ m = "sep" ∨ m = "sept" then some 9
  else if m = "october" ∨ m = "oct" then some 10
  else if m = "november" ∨ m = "nov" then some 11
  else if m = "december" ∨ m = "dec" then some 12
  else none

/-! ### The seven parse attempts, in the source's order.  Each step is
"search for the pattern, then build the date"; a failed build (a
`ValueError` from `date(...)`, caught, or an unknown month name, which
falls through the `if month_num:` guard) yields `none` and the next
pattern is tried — never a later match of the same pattern. -/

/-- ISO step: groups are year, month, day. -/
def stepIso (cs : List Char) : Option Date :=
  (reSearch pIsoAt cs).bind fun g =>
    mkDate? (digitsToNat g.1) (digitsToNat g.2.1) (digitsToNat g.2.2)

/-- `MM/DD/YYYY` step. -/
def stepSlash (cs : List Char) : Option Date :=
  (reSearch pSlashAt cs).bind fun g =>
    mkDate? (digitsToNat g.2.2) (digitsToNat g.1) (digitsToNat g.2.1)

/-- `MM-DD-YYYY` step. -/
def stepDash (cs : List Char) : Option Date :=
  (reSearch pDashAt cs).bind fun g =>
    mkDate? (digitsToNat g.2.2) (digitsToNat g.1) (digitsToNat g.2.1)

/-- `Month DD[,] YYYY` step. -/
def stepMonthDayYear (cs : List Char) : Option Date :=
  (reSearch pMonthDayYearAt cs).bind fun g =>
    (parse_month_name (String.mk g.1)).bind fun m =>
      mkDate? (digitsToNat g.2.2) m (digitsToNat g.2.1)

/-- `DD Month YYYY` step. -/
def stepDayMonthYear (cs : List Char) : Option Date :=
  (reSearch pDayMonthYearAt cs).bind fun g =>
    (parse_month_name (String.mk g.2.1)).bind fun m =>
      mkDate? (digitsToNat g.2.2) m (digitsToNat g.1)

/-- `Month YYYY` step: day defaults to 1. -/
def stepMonthYear (cs : List Char) : Option Date :=
  (reSearch pMonthYearAt cs).bind fun g =>
    (parse_month_name (String.mk g.1)).bind fun m =>
      mkDate? (digitsToNat g.2) m 1

/-- `YYYY` step: month and day default to 1. -/
def stepYear (cs : List Char) : Option Date :=
  (reSearch pYearAt cs).bind fun g => mkDate? (digitsToNat g) 1 1

/-- The ordered pattern chain of `parse_release_date` on cleaned text. -/
def parseDateChain (cs : List Char) : Option Date :=
  stepIso cs <|> stepSlash cs <|> stepDash cs <|> stepMonthDayYear cs <|>
    stepDayMonthYear cs <|> stepMonthYear cs <|> stepYear cs

/-- `BookNotificationScraper.parse_release_date` on a string argument:
the `if not date_str` falsy guard, then `clean_text`, then the chain. -/
def parse_release_date (s : String) : Option Date :=
  if s = "" then none else parseDateChain (clean_text s).toList

/-- A Python value as it may appear in a `release_date` slot or be passed
to `parse_release_date`: a string, a `datetime.date`, `None`, or an
integer standing for any other (non-string, non-date) object. -/
inductive PyVal where
  | str (s : String)
  | date (d : Date)
  | pynone
  | int (n : Int)
deriving DecidableEq, Repr

/-- Python truthiness for the values of `PyVal` (`date` objects are
always truthy). -/
def pyFalsy : PyVal → Bool
  | .str s => s = ""
  | .date _ => false
  | .pynone => true
  | .int n => n = 0

/-- `str(v)` for the values of `PyVal`. -/
def pyStr : PyVal → String
  | .str s => s
  | .date d => dateToIso d
  | .pynone => "None"
  | .int n => toString n

/-- `parse_release_date` on an arbitrary value: the guard
`if not date_str or not isinstance(date_str, str): return None`. -/
def parse_release_date_val : PyVal → Option Date
  | .str s => parse_release_date s
  | _ => none

example : parse_release_date "2025-12-09" = some ⟨2025, 12, 9⟩ := by decide
example : parse_release_date "December 9, 2025" = some ⟨2025, 12, 9⟩ := by decide
example : parse_release_date "December 2025" = some ⟨2025, 12, 1⟩ := by decide
example : parse_release_date "2025" = some ⟨2025, 1, 1⟩ := by decide
example : parse_release_date "not a date" = none := by decide
example : parse_release_date "12/09/2025" = some ⟨2025, 12, 9⟩ := by decide
example : parse_release_date "12-09-2025" = some ⟨2025, 12, 9⟩ := by decide
example : parse_release_date "9 December 2025" = some ⟨2025, 12, 9⟩ := by decide
example : parse_release_date "2025-13-01" = some ⟨2025, 1, 1⟩ := by decide
example : parse_release_date "" = none := by decide

/-! ### Scraper pipeline (`BookNotificationScraper.scrape_author_releases`).
The three per-page extraction strategies walk HTML soup, which is outside
the embedding; the pipeline is embedded as a function of the three
strategy outputs (FAQ sentence patterns, JSON-LD structured data, and the
HTML/tabular strategy), exactly as the source composes them. -/

/-- A candidate book as the scraper produces it (`normalize_book_data`
output restricted to the fields this pipeline stage reads). -/
structure SBook where
  title : String
  author : String
  release_date : PyVal
deriving DecidableEq, Repr

/-- `BookNotificationScraper._deduplicate_books`: keep the first book for
each lower-cased `(title, author)` key. -/
def deduplicate_books (books : List SBook) : List SBook :=
  (books.foldl
    (fun acc b =>
      let key := (lowerStr b.title, lowerStr b.author)
      if acc.2.contains key then acc else (acc.1 ++ [b], key :: acc.2))
    (([] : List SBook), ([] : List (String × String)))).1

/-- `BookNotificationScraper._is_upcoming_release`: falsy date ⇒ keep;
string date is parsed; a parsed (or given) date is kept iff it is today
or later; anything undeterminable is kept. -/
def is_upcoming_release (today : Date) (b : SBook) : Bool :=
  if pyFalsy b.release_date then true
  else
    match b.release_date with
    | .str s =>
      match parse_release_date s with
      | some d => dateLe today d
      | none => true
    | .date d => dateLe today d
    | _ => true

/-- `scrape_author_releases`, lines 48–70: FAQ books, then JSON-LD books,
then HTML books only when the FAQ strategy found nothing; deduplicate;
keep upcoming releases. -/
def scrape_author_releases (faq jsonLd html : List SBook) (today : Date) :
    List SBook :=
  let books := faq ++ jsonLd ++ (if faq.isEmpty then html else [])
  (deduplicate_books books).filter (is_upcoming_release today)

/-- The date a draft's `release_date` denotes for the upcoming-filter:
`none` when the slot is falsy, unparseable, or not a date-like value. -/
def draftDate (b : SBook) : Option Date :=
  if pyFalsy b.release_date then none
  else
    match b.release_date with
    | .str s => parse_release_date s
    | .date d => some d
    | _ => none

/-! ### Monitor data model (`book_monitor.py`).  A stored/candidate book
is the normalized dictionary shape that `normalize_book_data` and the
persisted JSON schema (§6) give every record: all keys present. -/

/-- A `notifications_sent` entry. -/
structure NEvent where
  ntype : String
  edate : String
  old_date : Option String
  new_date : Option String
deriving DecidableEq, Repr

/-- A book record / candidate dictionary in the monitor. -/
structure Book where
  id : String
  title : String
  author : String
  release_date : PyVal
  status : String
  source_url : String
  discovery_date : String
  last_checked : String
  notifications_sent : List NEvent
  metadata : List (String × String)
deriving DecidableEq, Repr

/-- The schedule store. -/
structure Store where
  books : List Book
  last_updated : String
deriving DecidableEq, Repr

/-- Association-list lookup modelling Python `dict` access (`d.get(k)`);
entries are unique-keyed in dictionaries the program builds. -/
def alLookup (k : String) (l : List (String × String)) : Option String :=
  (l.find? fun kv => kv.1 = k).map fun kv => kv.2

/-- Python `{**a, **b}`: `a`'s keys in order with `b` winning on conflict,
then `b`'s new keys in order. -/
def dictMerge (a b : List (String × String)) : List (String × String) :=
  (a.map fun kv => (kv.1, (alLookup kv.1 b).getD kv.2)) ++
    b.filter fun kv => (alLookup kv.1 a).isNone

/-- `BookMonitor._parse_date_field`: falsy ⇒ `None`; a string is parsed
with `datetime.fromisoformat` (stored dates have the `YYYY-MM-DD` form);
a date object passes through; any other type gives `None`. -/
def parse_date_field (v : PyVal) : Option Date :=
  if pyFalsy v then none
  else
    match v with
    | .str s =>
      match s.toList with
      | [y1, y2, y3, y4, '-', m1, m2, '-', d1, d2] =>
        if [y1, y2, y3, y4, m1, m2, d1, d2].all Char.isDigit then
          mkDate? (digitsToNat [y1, y2, y3, y4]) (digitsToNat [m1, m2])
            (digitsToNat [d1, d2])
        else none
      | _ => none
    | .date d => some d
    | _ => none

/-- `BookMonitor.find_existing_book`: first record with the same truthy
id, else first record with the same lower-cased title and author. -/
def find_existing_book (b : Book) (store : Store) : Option Book :=
  match (if b.id ≠ "" then store.books.find? fun e => e.id == b.id else none) with
  | some e => some e
  | none =>
    store.books.find? fun e =>
      lowerStr e.title == lowerStr b.title && lowerStr e.author == lowerStr b.author

/-- `BookMonitor.has_date_changed`: compare `str(date)` forms, falsy
values as `""`. -/
def has_date_changed (nb e : Book) : Bool :=
  (if pyFalsy nb.release_date then "" else pyStr nb.release_date) !=
    (if pyFalsy e.release_date then "" else pyStr e.release_date)

/-- `BookMonitor._update_book_status`: set `status` to `"released"` when
the release date parses and is not after today; otherwise leave the
record as it is (there is no else branch in the source). -/
def update_book_status (today : Date) (b : Book) : Book :=
  match parse_date_field b.release_date with
  | some d => if dateLe d today then { b with status := "released" } else b
  | none => b

/-- Lines 280–291 of `update_release_schedules`: the merged record for a
candidate that matched an existing record.  The candidate dictionaries
reaching this code are normalized (`normalize_book_data`), so every
`new_book.get(key, fallback)` finds the key and returns the candidate's
value — the fallback to the existing value is dead. -/
def mergeBooks (existing cand : Book) (now : String) : Book :=
  { existing with
    title := cand.title
    release_date := cand.release_date
    source_url := cand.source_url
    last_checked := now
    metadata := dictMerge existing.metadata cand.metadata }

/-- The last element satisfying `p` — Python dict indexes are built by
iterating and overwriting, so a lookup returns the last inserted match. -/
def lastFind? (p : α → Bool) (l : List α) : Option α :=
  l.reverse.find? p

/-- The index lookup of `update_release_schedules` (lines 249–278):
by truthy id against `existing_by_id`, else by lower-cased title/author
against `existing_by_title_author` (indexed only for records whose
lowered title and author are both truthy). -/
def matchExisting (store : Store) (nb : Book) : Option Book :=
  let byTA :=
    lastFind?
      (fun e =>
        lowerStr e.title != "" && lowerStr e.author != "" &&
          (lowerStr e.title == lowerStr nb.title) &&
          (lowerStr e.author == lowerStr nb.author))
      store.books
  if nb.id ≠ "" then
    match lastFind? (fun e => e.id != "" && e.id == nb.id) store.books with
    | some e => some e
    | none => byTA
  else byTA

/-- The first loop of `update_release_schedules` (lines 268–294): merge
matched candidates, append unmatched candidates as new records, and
collect the ids of the matched existing records (`updated_book_ids`). -/
def processNew (store : Store) (now : String) :
    List Book → List Book × List String
  | [] => ([], [])
  | nb :: rest =>
    let tail := processNew store now rest
    match matchExisting store nb with
    | some e => (mergeBooks e nb now :: tail.1, e.id :: tail.2)
    | none => (nb :: tail.1, tail.2)

/-- `BookMonitor.update_release_schedules`: merge candidates, retain
unmatched existing records with `last_checked` refreshed, then recompute
status for every record. -/
def update_release_schedules (store : Store) (newBooks : List Book)
    (now : String) (today : Date) : Store :=
  let merged := processNew store now newBooks
  let retained :=
    store.books.filterMap fun e =>
      if merged.2.contains e.id then none
      else some { e with last_checked := now }
  { books := (merged.1 ++ retained).map (update_book_status today)
    last_updated := now }

example :
    parse_date_field (.str "2025-12-09") = some ⟨2025, 12, 9⟩ := by decide
example : parse_date_field (.str "2025-13-09") = none := by decide
example : parse_date_field .pynone = none := by decide
example : parse_date_field (.date ⟨2025, 1, 1⟩) = some ⟨2025, 1, 1⟩ := by decide

/-! ### Notification trigger evaluator and cycle (`book_monitor.py`). -/

/-- `BookMonitor.should_send_reminder`: a parseable release date, today
exactly `release_date - timedelta(days=7)`, and no prior `reminder`
event among `notifications_sent`. -/
def should_send_reminder (b : Book) (today : Date) : Bool :=
  match parse_date_field b.release_date with
  | none => false
  | some d =>
    if today ≠ subDays d 7 then false
    else ! b.notifications_sent.any fun ev => ev.ntype == "reminder"

/-- `BookMonitor.should_send_release_day_alert`: a parseable release
date, today exactly the release date, and no prior `release_day` event. -/
def should_send_release_day_alert (b : Book) (today : Date) : Bool :=
  match parse_date_field b.release_date with
  | none => false
  | some d =>
    if today ≠ d then false
    else ! b.notifications_sent.any fun ev => ev.ntype == "release_day"

/-- `BookMonitor._find_book_by_id` plus the in-place append: add the
event to the first record whose id equals `bid` (no truthiness check). -/
def appendEventFirst (bid : String) (ev : NEvent) : List Book → List Book
  | [] => []
  | b :: rest =>
    if b.id = bid then
      { b with notifications_sent := b.notifications_sent ++ [ev] } :: rest
    else b :: appendEventFirst bid ev rest

/-- Whether each of the four batch sends succeeds this cycle (the boolean
the external `EmailSender` returns). -/
structure SendFlags where
  discovery : Bool
  dateChange : Bool
  reminder : Bool
  releaseDay : Bool
deriving DecidableEq, Repr

/-- A `date_changes` entry: the scraped book with the old and new
`release_date` values. -/
structure DateChange where
  book : Book
  old_date : PyVal
  new_date : PyVal
deriving DecidableEq, Repr

/-- The per-batch success loop of `send_notifications`: for each batch
entry, record the entry's event on the first store record with the
entry's id. -/
def applyEvents (getId : α → String) (mkEv : α → NEvent) (batch : List α)
    (books : List Book) : List Book :=
  batch.foldl (fun acc x => appendEventFirst (getId x) (mkEv x) acc) books

/-- `BookMonitor.send_notifications`: for each kind in order —
discovery, date change, 7-day reminder, release day — if the batch is
non-empty, attempt the send, and only on success append an event to each
affected record (found by id in the updated store).  Reminder and
release-day batches are computed from the store as it stands after the
earlier appends. -/
def send_notifications (st : Store) (newDiscoveries : List Book)
    (dateChanges : List DateChange) (fl : SendFlags) (today : Date)
    (now : String) : Store :=
  let bs0 := st.books
  let bs1 :=
    if ¬ newDiscoveries.isEmpty ∧ fl.discovery then
      applyEvents Book.id (fun _ => ⟨"discovery", now, none, none⟩)
        newDiscoveries bs0
    else bs0
  let bs2 :=
    if ¬ dateChanges.isEmpty ∧ fl.dateChange then
      applyEvents (fun ch => ch.book.id)
        (fun ch =>
          ⟨"date_change", now, some (pyStr ch.old_date),
            some (pyStr ch.new_date)⟩)
        dateChanges bs1
    else bs1
  let reminderBooks := bs2.filter fun b => should_send_reminder b today
  let bs3 :=
    if ¬ reminderBooks.isEmpty ∧ fl.reminder then
      applyEvents Book.id (fun _ => ⟨"reminder", now, none, none⟩)
        reminderBooks bs2
    else bs2
  let releaseDayBooks := bs3.filter fun b => should_send_release_day_alert b today
  let bs4 :=
    if ¬ releaseDayBooks.isEmpty ∧ fl.releaseDay then
      applyEvents Book.id (fun _ => ⟨"release_day", now, none, none⟩)
        releaseDayBooks bs3
    else bs3
  { st with books := bs4 }

/-- The retention test of `cleanup_old_releases`: a record is kept
unless its parseable release date is strictly before
`today - 180 days`; records with missing or unparseable dates are
kept. -/
def keptByCleanup (today : Date) (b : Book) : Bool :=
  match parse_date_field b.release_date with
  | some d => ! dateLt d (subDays today 180)
  | none => true

/-- `BookMonitor.cleanup_old_releases`: drop records whose parseable
release date is strictly before the 180-day cutoff. -/
def cleanup_old_releases (st : Store) (today : Date) : Store :=
  { st with books := st.books.filter (keptByCleanup today) }

/-- The new-discovery side channel of `run_monitoring_cycle`
(lines 60–67): scraped books with no existing match. -/
def discoveryBatch (existing : Store) (discovered : List Book) : List Book :=
  discovered.filter fun b => (find_existing_book b existing).isNone

/-- The date-change side channel of `run_monitoring_cycle`
(lines 68–76): matched scraped books whose date string changed. -/
def dateChangeBatch (existing : Store) (discovered : List Book) :
    List DateChange :=
  discovered.filterMap fun b =>
    match find_existing_book b existing with
    | some e =>
      if has_date_changed b e then
        some ⟨b, e.release_date, b.release_date⟩
      else none
    | none => none

/-- The store transformation of one monitoring cycle
(`run_monitoring_cycle`, lines 56–93): detect discoveries and date
changes against the loaded store, reconcile, send notifications, clean
up.  The final save writes this store; its success does not alter it. -/
def runCycleStore (existing : Store) (discovered : List Book)
    (fl : SendFlags) (today : Date) (now : String) : Store :=
  let newDisc := discoveryBatch existing discovered
  let dcs := dateChangeBatch existing discovered
  let updated := update_release_schedules existing discovered now today
  let notified := send_notifications updated newDisc dcs fl today now
  cleanup_old_releases notified today

/-- `BookMonitor.save_release_schedules`: returns `True` on success;
catches any write error and returns `False` (lines 141–155). -/
def save_release_schedules (writeOk : Bool) : Bool :=
  writeOk

/-- The boolean result of `BookMonitor.run_monitoring_cycle`: `False`
when no authors are configured; otherwise the cycle runs to the end and
returns `True` — the value of `save_release_schedules(...)` on line 93
is discarded, so a failed save does not change the result. -/
def run_monitoring_cycle_result (authorsFound saveOk : Bool) : Bool :=
  if authorsFound then
    let _ := save_release_schedules saveOk
    true
  else false

/-- `main`: exit code 0 when the cycle result is `True`, else 1. -/
def mainExitCode (cycleOk : Bool) : Nat :=
  if cycleOk then 0 else 1

/-! ### Fixtures for concrete witnesses and counterexamples. -/

/-- A normalized book record with the given id, title, author and
release date and defaults for the remaining fields. -/
def mkBook (i t a : String) (rd : PyVal) : Book :=
  { id := i
    title := t
    author := a
    release_date := rd
    status := "upcoming"
    source_url := "https://example.test/authors/x"
    discovery_date := "2025-01-01T00:00:00"
    last_checked := "2025-01-01T00:00:00"
    notifications_sent := []
    metadata := [] }

/-! ### Claims. -/

/-- C3: the spec says a failed final save makes the cycle fail and the
process exit 1, exit 0 occurring only on a fully successful cycle.  The
code evaluated at the failing input: `save_release_schedules` catches
the write error and returns `False`, but `run_monitoring_cycle` discards
that value (line 93), returns `True`, and the process exits 0. -/
theorem c3_failed_save_reports_success :
    save_release_schedules false = false ∧
    run_monitoring_cycle_result true false = true ∧
    mainExitCode (run_monitoring_cycle_result true false) = 0 :=
  ⟨rfl, rfl, rfl⟩

/-- C7: the date-parser table — `"2025-12-09"` ↦ 2025-12-09,
`"December 9, 2025"` ↦ 2025-12-09, `"December 2025"` ↦ 2025-12-01,
`"2025"` ↦ 2025-01-01, `"not a date"` ↦ failure — and first-match-wins:
the later year-only pattern alone would map the first three inputs to
January 1st of the year, but the earlier pattern's result is returned. -/
theorem c7_date_parser_table :
    parse_release_date "2025-12-09" = some ⟨2025, 12, 9⟩ ∧
    parse_release_date "December 9, 2025" = some ⟨2025, 12, 9⟩ ∧
    parse_release_date "December 2025" = some ⟨2025, 12, 1⟩ ∧
    parse_release_date "2025" = some ⟨2025, 1, 1⟩ ∧
    parse_release_date "not a date" = none ∧
    stepYear (clean_text "2025-12-09").toList = some ⟨2025, 1, 1⟩ ∧
    stepYear (clean_text "December 9, 2025").toList = some ⟨2025, 1, 1⟩ ∧
    stepYear (clean_text "December 2025").toList = some ⟨2025, 1, 1⟩ := by
  decide

/-- C9: the date parser is total over arbitrary input values — every
non-string input (including `None`, numbers and date objects) and the
empty string yield `none` rather than an error, and an out-of-range
numeric field rejects the matching pattern and lets later patterns run:
on `"2025-13-01"` the ISO pattern matches (groups 2025/13/01) but month
13 fails `date(...)`, and the year-only pattern then yields 2025-01-01. -/
theorem c9_parser_totality :
    (∀ n : Int, parse_release_date_val (.int n) = none) ∧
    parse_release_date_val .pynone = none ∧
    (∀ d : Date, parse_release_date_val (.date d) = none) ∧
    parse_release_date_val (.str "") = none ∧
    reSearch pIsoAt (clean_text "2025-13-01").toList =
      some ("2025".toList, "13".toList, "01".toList) ∧
    stepIso (clean_text "2025-13-01").toList = none ∧
    parse_release_date_val (.str "2025-13-01") = some ⟨2025, 1, 1⟩ :=
  ⟨fun _ => rfl, rfl, fun _ => rfl, by decide, by decide, by decide, by decide⟩

/-- C6: a record qualifies for the 7-day reminder iff its release date
parses, today is exactly the parsed date minus 7 days, and no prior
`reminder` event was recorded; in particular a record with release date
2025-12-09 qualifies on 2025-12-02, no longer qualifies once a reminder
event is recorded, and does not qualify on 2025-12-03. -/
theorem c6_reminder_gating :
    (∀ (b : Book) (today : Date),
        should_send_reminder b today = true ↔
          ∃ d, parse_date_field b.release_date = some d ∧
            today = subDays d 7 ∧
            ∀ ev ∈ b.notifications_sent, ¬ ev.ntype = "reminder") ∧
    should_send_reminder (mkBook "b1" "The Book" "An Author" (.str "2025-12-09"))
        ⟨2025, 12, 2⟩ = true ∧
    should_send_reminder
        { mkBook "b1" "The Book" "An Author" (.str "2025-12-09") with
          notifications_sent := [⟨"reminder", "2025-12-02T09:00:00", none, none⟩] }
        ⟨2025, 12, 2⟩ = false ∧
    should_send_reminder (mkBook "b1" "The Book" "An Author" (.str "2025-12-09"))
        ⟨2025, 12, 3⟩ = false := by
  refine ⟨?_, by decide, by decide, by decide⟩
  intro b today
  unfold should_send_reminder
  cases h : parse_date_field b.release_date with
  | none => simp [h]
  | some d =>
    by_cases ht : today = subDays d 7
    · simp [h, ht, List.any_eq_true]
    · simp [h, ht]

/-- `a ≤ b` is the complement of `b < a` for Python date comparison. -/
theorem dateLe_eq_not_lt (a b : Date) : dateLe a b = ! dateLt b a := by
  unfold dateLe dateLt
  by_cases h1 : a.year = b.year <;> by_cases h2 : a.month = b.month <;>
    simp [h1, h2, ne_comm, ← decide_not, decide_eq_decide] <;> omega

/-- The upcoming-filter decision depends only on the date a draft's
`release_date` denotes. -/
theorem is_upcoming_eq_draftDate (today : Date) (b : SBook) :
    is_upcoming_release today b = ((draftDate b).map (dateLe today)).getD true := by
  obtain ⟨bt, ba, brd⟩ := b
  unfold is_upcoming_release draftDate
  cases brd with
  | str s =>
    by_cases hs : s = ""
    · subst hs; simp [pyFalsy, parse_release_date]
    · simp only [pyFalsy, hs, decide_eq_true_eq, if_false, ite_false,
        if_neg, Bool.false_eq_true]
      cases h : parse_release_date s <;> simp [pyFalsy, hs, h]
  | date d => simp [pyFalsy]
  | pynone => simp [pyFalsy]
  | int n => by_cases hn : n = 0 <;> simp [pyFalsy, hn]

/-- Draft fixture: a dateless book by some author. -/
def sb1 : SBook := ⟨"Book One", "An Author", .pynone⟩

/-- Draft fixture: a second dateless book by the same author. -/
def sb2 : SBook := ⟨"Book Two", "An Author", .pynone⟩

/-- C8 counterexample: the claim says the tabular/listing strategy is
consulted only when both higher-confidence strategies (structured data
and free-text sentence patterns) yield no candidates.  On a page where
the FAQ sentence-pattern strategy yields nothing but the JSON-LD
structured-data strategy yields `sb1`, the HTML/tabular strategy is
still consulted and its draft `sb2` reaches the output — the guard on
line 59 of `book_notification.py` tests only `faq_books`. -/
theorem c8_counterexample :
    sb1 ∈ scrape_author_releases [] [sb1] [sb2] ⟨2025, 10, 12⟩ ∧
    sb2 ∈ scrape_author_releases [] [sb1] [sb2] ⟨2025, 10, 12⟩ := by
  decide

/-- C8 amended: the tabular/listing strategy is consulted exactly when
the FAQ sentence-pattern strategy yields nothing for the page; the
structured-data (JSON-LD) strategy's results do not suppress it. -/
theorem c8_amended :
    (∀ (faq jsonLd html : List SBook) (today : Date), faq ≠ [] →
        scrape_author_releases faq jsonLd html today =
          scrape_author_releases faq jsonLd [] today) ∧
    (∀ (jsonLd html : List SBook) (today : Date),
        scrape_author_releases [] jsonLd html today =
          (deduplicate_books (jsonLd ++ html)).filter
            (is_upcoming_release today)) := by
  constructor
  · intro faq jsonLd html today hfaq
    cases faq with
    | nil => exact absurd rfl hfaq
    | cons h t => simp [scrape_author_releases]
  · intro jsonLd html today
    simp [scrape_author_releases]

/-- C8 witness for the amended claim: with a non-empty FAQ result the
HTML strategy's drafts do not affect the output. -/
theorem c8_witness :
    scrape_author_releases [sb1] [] [sb2] ⟨2025, 10, 12⟩ =
      scrape_author_releases [sb1] [] [] ⟨2025, 10, 12⟩ :=
  c8_amended.1 [sb1] [] [sb2] ⟨2025, 10, 12⟩ (by decide)

/-- C10: the scraper's returned candidate list contains only upcoming
drafts — a draft is returned only if its denoted date is not strictly
before today; a deduplicated draft with no denoted date (absent or
unparseable `release_date`) is always returned; and a deduplicated
draft whose denoted date is strictly before today is filtered out. -/
theorem c10_upcoming_only :
    ∀ (faq jsonLd html : List SBook) (today : Date),
      (∀ b ∈ scrape_author_releases faq jsonLd html today,
          ∀ d, draftDate b = some d → dateLt d today = false) ∧
      (∀ b ∈ deduplicate_books
            (faq ++ jsonLd ++ (if faq.isEmpty then html else [])),
          draftDate b = none →
            b ∈ scrape_author_releases faq jsonLd html today) ∧
      (∀ b ∈ deduplicate_books
            (faq ++ jsonLd ++ (if faq.isEmpty then html else [])),
          ∀ d, draftDate b = some d → dateLt d today = true →
            b ∉ scrape_author_releases faq jsonLd html today) := by
  intro faq jsonLd html today
  refine ⟨?_, ?_, ?_⟩
  · intro b hb d hd
    rw [scrape_author_releases, List.mem_filter] at hb
    have h := hb.2
    rw [is_upcoming_eq_draftDate, hd] at h
    simp only [Option.map_some', Option.getD_some, dateLe_eq_not_lt] at h
    simpa using h
  · intro b hb hd
    rw [scrape_author_releases, List.mem_filter]
    refine ⟨hb, ?_⟩
    rw [is_upcoming_eq_draftDate, hd]
    rfl
  · intro b hb d hd hlt hmem
    rw [scrape_author_releases, List.mem_filter] at hmem
    have h := hmem.2
    rw [is_upcoming_eq_draftDate, hd] at h
    simp only [Option.map_some', Option.getD_some, dateLe_eq_not_lt, hlt] at h
    simp at h

/-- C10 witness: a dateless deduplicated draft is returned. -/
theorem c10_witness :
    sb1 ∈ scrape_author_releases [] [sb1] [] ⟨2025, 10, 12⟩ :=
  (c10_upcoming_only [] [sb1] [] ⟨2025, 10, 12⟩).2.1 sb1 (by decide) (by decide)

/-- Lookup on a cons cell. -/
theorem alLookup_cons (k : String) (hd : String × String)
    (tl : List (String × String)) :
    alLookup k (hd :: tl) = if hd.1 = k then some hd.2 else alLookup k tl := by
  unfold alLookup
  by_cases h : hd.1 = k <;> simp [List.find?, h]

/-- Lookup distributes over append, left side winning. -/
theorem alLookup_append (k : String) (l1 l2 : List (String × String)) :
    alLookup k (l1 ++ l2) = (alLookup k l1).or (alLookup k l2) := by
  induction l1 with
  | nil => simp [alLookup]
  | cons hd tl ih =>
    rw [List.cons_append, alLookup_cons, alLookup_cons]
    by_cases h : hd.1 = k <;> simp [h, ih]

/-- Lookup in the overridden copy of the first dict of `{**a, **b}`. -/
theorem alLookup_map_override (k : String) (a b : List (String × String)) :
    alLookup k (a.map fun kv => (kv.1, (alLookup kv.1 b).getD kv.2)) =
      (alLookup k a).map fun v => (alLookup k b).getD v := by
  induction a with
  | nil => simp [alLookup]
  | cons hd tl ih =>
    rw [List.map_cons, alLookup_cons, alLookup_cons]
    by_cases h : hd.1 = k
    · simp [h]
    · simp [h, ih]

/-- Lookup in the new-keys part of `{**a, **b}`. -/
theorem alLookup_filter_isNone (k : String) (a b : List (String × String)) :
    alLookup k (b.filter fun kv => (alLookup kv.1 a).isNone) =
      if (alLookup k a).isNone then alLookup k b else none := by
  induction b with
  | nil => simp [alLookup]
  | cons hd tl ih =>
    by_cases hp : (alLookup hd.1 a).isNone
    · rw [List.filter_cons_of_pos (by simpa using hp), alLookup_cons, alLookup_cons]
      by_cases hk : hd.1 = k
      · subst hk; simp [hp]
      · simp [hk, ih]
    · rw [List.filter_cons_of_neg (by simpa using hp), alLookup_cons]
      by_cases hk : hd.1 = k
      · subst hk; simp [hp, ih]
      · simp [hk, ih]

/-- The key-wise content of Python's `{**a, **b}`: `b` wins on conflict,
`a` is the fallback. -/
theorem alLookup_dictMerge (a b : List (String × String)) (k : String) :
    alLookup k (dictMerge a b) = (alLookup k b).or (alLookup k a) := by
  unfold dictMerge
  rw [alLookup_append, alLookup_map_override, alLookup_filter_isNone]
  cases ha : alLookup k a <;> cases hb : alLookup k b <;> simp [ha, hb]

/-- `_update_book_status` touches at most the `status` field. -/
theorem update_book_status_fields (today : Date) (x : Book) :
    ∃ s, update_book_status today x = { x with status := s } := by
  unfold update_book_status
  cases parse_date_field x.release_date with
  | none => exact ⟨x.status, rfl⟩
  | some d =>
    cases hc : dateLe d today
    · exact ⟨x.status, by simp [hc]⟩
    · exact ⟨"released", by simp [hc]⟩

/-- `_update_book_status` sets `released` when the parsed date has
passed. -/
theorem update_book_status_released (today : Date) (x : Book) (d : Date)
    (hp : parse_date_field x.release_date = some d)
    (hle : dateLe d today = true) :
    (update_book_status today x).status = "released" := by
  unfold update_book_status
  rw [hp]
  simp [hle]

/-- A candidate that matched an existing record contributes its merged
record to the first (merge) pass of `update_release_schedules`. -/
theorem mem_processNew_merged (store : Store) (now : String)
    (cands : List Book) (c e : Book) (hc : c ∈ cands)
    (he : matchExisting store c = some e) :
    mergeBooks e c now ∈ (processNew store now cands).1 := by
  induction cands with
  | nil => cases hc
  | cons hd tl ih =>
    rcases List.mem_cons.mp hc with h | h
    · subst h
      simp only [processNew, he]
      exact List.mem_cons_self _ _
    · have hmem := ih h
      cases hm : matchExisting store hd <;> simp only [processNew, hm] <;>
        exact List.mem_cons_of_mem _ hmem

/-- Existing-record fixture for C1: a record with a stored date and
metadata. -/
def exC1 : Book :=
  { mkBook "id1" "The Book" "An Author" (.str "2025-12-09") with
    metadata := [("publisher", "P"), ("series", "S")] }

/-- Candidate fixture for C1: the same book scraped again, this time
with no release date (`release_date` key present, value `None`, as
`normalize_book_data` produces) and different metadata. -/
def cnC1 : Book :=
  { mkBook "id1" "The Book" "An Author" .pynone with
    metadata := [("series", "S2"), ("isbn", "X")] }

/-- C1 counterexample: the claim says the updated record's
`release_date` takes the candidate's value if the candidate has one and
otherwise keeps the existing record's value.  Candidate `cnC1` has no
release date, yet the merged record's `release_date` is `None` rather
than the existing `"2025-12-09"`: `new_book.get('release_date',
existing...)` finds the key (with value `None`) on every normalized
candidate, so the fallback never applies and the stored date is wiped. -/
theorem c1_counterexample :
    cnC1.release_date = PyVal.pynone ∧
    exC1.release_date = PyVal.str "2025-12-09" ∧
    (update_release_schedules ⟨[exC1], "t0"⟩ [cnC1] "t1" ⟨2025, 10, 12⟩).books.map
        (fun b => b.release_date) = [PyVal.pynone] := by
  decide

/-- C1 amended: on a match, the updated record's `title`,
`release_date` and `source_url` take the candidate's value
unconditionally (normalized candidates always carry these keys, so the
existing-value fallback of `dict.get` never fires — in particular a
candidate without a release date clears the stored one); `metadata` is
the key-wise union with the candidate winning; `last_checked` is set to
now; `notifications_sent` and `discovery_date` are carried over
unchanged. -/
theorem c1_amended :
    ∀ (store : Store) (cands : List Book) (now : String) (today : Date)
      (c e : Book), c ∈ cands → matchExisting store c = some e →
      ∃ b ∈ (update_release_schedules store cands now today).books,
        b.title = c.title ∧ b.release_date = c.release_date ∧
        b.source_url = c.source_url ∧ b.last_checked = now ∧
        b.notifications_sent = e.notifications_sent ∧
        b.discovery_date = e.discovery_date ∧
        ∀ k, alLookup k b.metadata =
          (alLookup k c.metadata).or (alLookup k e.metadata) := by
  intro store cands now today c e hc he
  obtain ⟨s, hs⟩ := update_book_status_fields today (mergeBooks e c now)
  refine ⟨update_book_status today (mergeBooks e c now), ?_, ?_⟩
  · simp only [update_release_schedules, List.mem_map]
    exact ⟨mergeBooks e c now,
      List.mem_append_left _ (mem_processNew_merged store now cands c e hc he),
      rfl⟩
  · rw [hs]
    exact ⟨rfl, rfl, rfl, rfl, rfl, rfl,
      fun k => alLookup_dictMerge e.metadata c.metadata k⟩

/-- C1 witness: the amended merge equations at a concrete store and
candidate. -/
theorem c1_witness :
    ∃ b ∈ (update_release_schedules ⟨[exC1], "t0"⟩ [cnC1] "t1"
        ⟨2025, 10, 12⟩).books,
      b.title = cnC1.title ∧ b.release_date = cnC1.release_date ∧
      b.source_url = cnC1.source_url ∧ b.last_checked = "t1" ∧
      b.notifications_sent = exC1.notifications_sent ∧
      b.discovery_date = exC1.discovery_date ∧
      ∀ k, alLookup k b.metadata =
        (alLookup k cnC1.metadata).or (alLookup k exC1.metadata) :=
  c1_amended ⟨[exC1], "t0"⟩ [cnC1] "t1" ⟨2025, 10, 12⟩ cnC1 exC1
    (by decide) (by decide)

/-- Fixture for C2: a record already marked released whose stored date
is in the future (this arises in the program when a released record's
date slips to a later date: the merge keeps `status`). -/
def exC2 : Book :=
  { mkBook "id2" "Future Book" "An Author" (.str "2025-12-31") with
    status := "released" }

/-- C2 counterexample: the claim says a reconciled record's status is
`released` iff its parseable release date is ≤ today, else `upcoming`.
Record `exC2` (status `released`, date 2025-12-31) passes through
reconciliation on 2025-10-12 with status still `released` although its
date is after today: `_update_book_status` has no else branch and never
resets a status to `upcoming`. -/
theorem c2_counterexample :
    ((update_release_schedules ⟨[exC2], "t0"⟩ [] "t1" ⟨2025, 10, 12⟩).books.map
        fun b => b.status) = ["released"] ∧
    parse_date_field exC2.release_date = some ⟨2025, 12, 31⟩ ∧
    dateLe ⟨2025, 12, 31⟩ ⟨2025, 10, 12⟩ = false := by
  decide

/-- C2 amended: after reconciliation, a record whose release date
parses and is on or before today has status `released`; the converse
direction of the claimed iff does not hold — a record whose date is
absent, unparseable or in the future keeps whatever status it had, and
is not reset to `upcoming`. -/
theorem c2_amended :
    ∀ (store : Store) (cands : List Book) (now : String) (today : Date),
      ∀ b ∈ (update_release_schedules store cands now today).books,
        ∀ d, parse_date_field b.release_date = some d → dateLe d today = true →
          b.status = "released" := by
  intro store cands now today b hb d hp hle
  simp only [update_release_schedules, List.mem_map] at hb
  obtain ⟨x, _, rfl⟩ := hb
  have hrd : (update_book_status today x).release_date = x.release_date := by
    obtain ⟨s, hs⟩ := update_book_status_fields today x
    rw [hs]
  rw [hrd] at hp
  exact update_book_status_released today x d hp hle

/-- Fixture for the C2 witness: an upcoming record whose date has
passed. -/
def exC2w : Book := mkBook "w2" "Past Book" "An Author" (.str "2025-01-01")

/-- C2 witness: the amended claim at a concrete store — a record with a
past date comes out of reconciliation with status `released`. -/
theorem c2_witness :
    (update_book_status ⟨2025, 10, 12⟩ { exC2w with last_checked := "t1" }).status =
      "released" :=
  c2_amended ⟨[exC2w], "t0"⟩ [] "t1" ⟨2025, 10, 12⟩
    (update_book_status ⟨2025, 10, 12⟩ { exC2w with last_checked := "t1" })
    (by decide) ⟨2025, 1, 1⟩ (by decide) (by decide)

/-- A successful `lastFind?` returns a member of the list. -/
theorem lastFind?_mem {p : α → Bool} {l : List α} {e : α}
    (h : lastFind? p l = some e) : e ∈ l := by
  unfold lastFind? at h
  exact List.mem_reverse.mp (List.mem_of_find?_eq_some h)

/-- A matched existing record is a member of the store. -/
theorem matchExisting_mem {store : Store} {c e : Book}
    (h : matchExisting store c = some e) : e ∈ store.books := by
  simp only [matchExisting] at h
  by_cases hid : c.id ≠ ""
  · rw [if_pos hid] at h
    cases hf : lastFind? (fun b => b.id != "" && b.id == c.id) store.books with
    | some e2 =>
      rw [hf] at h
      cases h
      exact lastFind?_mem hf
    | none =>
      rw [hf] at h
      exact lastFind?_mem h
  · rw [if_neg hid] at h
    exact lastFind?_mem h

/-- Every id collected in `updated_book_ids` is the id of some existing
record matched by some candidate. -/
theorem processNew_ids_sound (store : Store) (now : String)
    (cands : List Book) (x : String)
    (hx : x ∈ (processNew store now cands).2) :
    ∃ c ∈ cands, ∃ e, matchExisting store c = some e ∧ e.id = x := by
  induction cands with
  | nil => simp [processNew] at hx
  | cons hd tl ih =>
    cases hm : matchExisting store hd with
    | some e =>
      simp only [processNew, hm] at hx
      rcases List.mem_cons.mp hx with h | h
      · exact ⟨hd, List.mem_cons_self _ _, e, hm, h.symm⟩
      · obtain ⟨c, hc, e2, hm2, he2⟩ := ih h
        exact ⟨c, List.mem_cons_of_mem _ hc, e2, hm2, he2⟩
    | none =>
      simp only [processNew, hm] at hx
      obtain ⟨c, hc, e2, hm2, he2⟩ := ih hx
      exact ⟨c, List.mem_cons_of_mem _ hc, e2, hm2, he2⟩

/-- Store fixtures for C5: two id-less records (Python `id` missing or
empty is falsy and never indexed by id). -/
def exA5 : Book := mkBook "" "Alpha" "An Author" .pynone

/-- Second id-less record. -/
def exB5 : Book := mkBook "" "Beta" "An Author" .pynone

/-- Candidate matching `exA5` by title/author. -/
def cn5 : Book := mkBook "" "Alpha" "An Author" (.str "2026-01-01")

/-- C5 counterexample: the claim says every record of the input store
is present in the reconciled store — reconciliation never deletes.  The
store holds the id-less records `exA5` ("Alpha") and `exB5` ("Beta");
one candidate matches "Alpha" by title/author.  The matched record's id
`""` enters `updated_book_ids`, and the retention loop then drops every
unmatched record with that id — "Beta" disappears from the output. -/
theorem c5_counterexample :
    ((update_release_schedules ⟨[exA5, exB5], "t0"⟩ [cn5] "t1"
        ⟨2025, 10, 12⟩).books.map fun b => b.title) = ["Alpha"] ∧
    ((⟨[exA5, exB5], "t0"⟩ : Store).books.map fun b => b.title) =
      ["Alpha", "Beta"] := by
  decide

/-- C5 amended: provided the store's records carry pairwise-distinct
ids (the §3 store invariant — `books` keyed by id), reconciliation
never deletes: a record matched by no candidate is retained with
`last_checked` refreshed (and status recomputed, like every record),
and every input record's id is still present in the output.  Without
distinct ids, an unmatched record sharing a matched record's id is
dropped. -/
theorem c5_amended :
    ∀ (store : Store) (cands : List Book) (now : String) (today : Date),
      (store.books.map Book.id).Nodup →
      (∀ e ∈ store.books,
          (∀ c ∈ cands, matchExisting store c ≠ some e) →
          update_book_status today { e with last_checked := now } ∈
            (update_release_schedules store cands now today).books) ∧
      (∀ e ∈ store.books,
          ∃ b ∈ (update_release_schedules store cands now today).books,
            b.id = e.id) := by
  intro store cands now today hnd
  constructor
  · intro e he hunm
    have hnotin : e.id ∉ (processNew store now cands).2 := by
      intro hin
      obtain ⟨c, hc, e2, hm2, he2⟩ := processNew_ids_sound store now cands e.id hin
      have he2mem : e2 ∈ store.books := matchExisting_mem hm2
      have : e2 = e := List.inj_on_of_nodup_map hnd he2mem he he2
      exact hunm c hc (this ▸ hm2)
    have hcont : (processNew store now cands).2.contains e.id = false := by
      cases hcon : (processNew store now cands).2.contains e.id
      · rfl
      · exact absurd (List.elem_iff.mp hcon) hnotin
    simp only [update_release_schedules, List.mem_map]
    refine ⟨{ e with last_checked := now }, List.mem_append_right _ ?_, rfl⟩
    rw [List.mem_filterMap]
    exact ⟨e, he, by rw [hcont]; rfl⟩
  · intro e he
    by_cases hin : e.id ∈ (processNew store now cands).2
    · obtain ⟨c, hc, e2, hm2, he2⟩ := processNew_ids_sound store now cands e.id hin
      obtain ⟨s, hs⟩ := update_book_status_fields today (mergeBooks e2 c now)
      refine ⟨update_book_status today (mergeBooks e2 c now), ?_, ?_⟩
      · simp only [update_release_schedules, List.mem_map]
        exact ⟨mergeBooks e2 c now,
          List.mem_append_left _ (mem_processNew_merged store now cands c e2 hc hm2),
          rfl⟩
      · rw [hs]
        exact he2
    · have hcont : (processNew store now cands).2.contains e.id = false := by
        cases hcon : (processNew store now cands).2.contains e.id
        · rfl
        · exact absurd (List.elem_iff.mp hcon) hin
      obtain ⟨s, hs⟩ := update_book_status_fields today { e with last_checked := now }
      refine ⟨update_book_status today { e with last_checked := now }, ?_, ?_⟩
      · simp only [update_release_schedules, List.mem_map]
        refine ⟨{ e with last_checked := now }, List.mem_append_right _ ?_, rfl⟩
        rw [List.mem_filterMap]
        exact ⟨e, he, by rw [hcont]; rfl⟩
      · rw [hs]

/-- Well-formed two-record store for the C5 witness. -/
def exC5w : Book := mkBook "id_a" "Alpha" "An Author" .pynone

/-- Second record with a distinct id. -/
def exC5w2 : Book := mkBook "id_b" "Beta" "An Author" .pynone

/-- C5 witness: with distinct ids and no candidates, an existing record
survives reconciliation with `last_checked` refreshed. -/
theorem c5_witness :
    update_book_status ⟨2025, 10, 12⟩ { exC5w2 with last_checked := "t1" } ∈
      (update_release_schedules ⟨[exC5w, exC5w2], "t0"⟩ [] "t1"
        ⟨2025, 10, 12⟩).books :=
  (c5_amended ⟨[exC5w, exC5w2], "t0"⟩ [] "t1" ⟨2025, 10, 12⟩ (by decide)).1
    exC5w2 (by decide) (by intro c hc; cases hc)

/-- `appendEventFirst` leaves a head with a different id untouched. -/
theorem appendEventFirst_head_ne {bid : String} {ev : NEvent} {c : Book}
    {t : List Book} (h : c.id ≠ bid) :
    appendEventFirst bid ev (c :: t) = c :: appendEventFirst bid ev t := by
  simp only [appendEventFirst, if_neg h]

/-- `appendEventFirst` preserves the sequence of record ids. -/
theorem appendEventFirst_ids (bid : String) (ev : NEvent) (l : List Book) :
    (appendEventFirst bid ev l).map Book.id = l.map Book.id := by
  induction l with
  | nil => rfl
  | cons hd tl ih => by_cases h : hd.id = bid <;> simp [appendEventFirst, h, ih]

/-- `applyEvents` leaves a head none of the batch targets untouched. -/
theorem applyEvents_head {getId : α → String} {mkEv : α → NEvent}
    {c : Book} (batch : List α) :
    ∀ (t : List Book), (∀ x ∈ batch, getId x ≠ c.id) →
      applyEvents getId mkEv batch (c :: t) =
        c :: applyEvents getId mkEv batch t := by
  induction batch with
  | nil => intro t _; rfl
  | cons hd tlb ih =>
    intro t h
    simp only [applyEvents, List.foldl_cons]
    rw [appendEventFirst_head_ne fun he => h hd (List.mem_cons_self _ _) he.symm]
    exact ih _ fun x hx => h x (List.mem_cons_of_mem _ hx)

/-- `applyEvents` preserves the sequence of record ids. -/
theorem applyEvents_ids {getId : α → String} {mkEv : α → NEvent}
    (batch : List α) : ∀ (t : List Book),
    (applyEvents getId mkEv batch t).map Book.id = t.map Book.id := by
  induction batch with
  | nil => intro t; rfl
  | cons hd tlb ih =>
    intro t
    simp only [applyEvents, List.foldl_cons] at ih ⊢
    rw [ih, appendEventFirst_ids]

/-- A record with no parseable date never qualifies for a reminder. -/
theorem should_send_reminder_of_parse_none {b : Book} {today : Date}
    (h : parse_date_field b.release_date = none) :
    should_send_reminder b today = false := by
  unfold should_send_reminder
  rw [h]

/-- A record with no parseable date never qualifies for a release-day
alert. -/
theorem should_send_release_day_of_parse_none {b : Book} {today : Date}
    (h : parse_date_field b.release_date = none) :
    should_send_release_day_alert b today = false := by
  unfold should_send_release_day_alert
  rw [h]

/-- `_update_book_status` is the identity on a record with no parseable
date. -/
theorem update_book_status_of_parse_none {b : Book} {today : Date}
    (h : parse_date_field b.release_date = none) :
    update_book_status today b = b := by
  unfold update_book_status
  rw [h]

/-- What `find_existing_book ... = none` says about the store, for a
candidate with a truthy id. -/
theorem find_existing_none {c : Book} {st : Store} (hid : c.id ≠ "")
    (h : find_existing_book c st = none) :
    (∀ e ∈ st.books, e.id ≠ c.id) ∧
    (∀ e ∈ st.books,
      ¬ (lowerStr e.title = lowerStr c.title ∧
          lowerStr e.author = lowerStr c.author)) := by
  simp only [find_existing_book, if_pos hid] at h
  cases hf : List.find? (fun e => e.id == c.id) st.books with
  | some e => rw [hf] at h; cases h
  | none =>
    rw [hf] at h
    constructor
    · intro e he heq
      have := List.find?_eq_none.mp hf e he
      simp [heq] at this
    · rintro e he ⟨h1, h2⟩
      have := List.find?_eq_none.mp h e he
      simp [h1, h2] at this

/-- A candidate with a truthy id that `find_existing_book` does not
match is not matched by the reconciliation indexes either. -/
theorem matchExisting_none {c : Book} {st : Store} (hid : c.id ≠ "")
    (h : find_existing_book c st = none) :
    matchExisting st c = none := by
  obtain ⟨hid2, hta⟩ := find_existing_none hid h
  simp only [matchExisting, if_pos hid]
  have h1 : lastFind? (fun e => e.id != "" && e.id == c.id) st.books = none := by
    unfold lastFind?
    rw [List.find?_eq_none]
    intro e he hb
    have hmem := List.mem_reverse.mp he
    have : e.id = c.id := by
      have := (Bool.and_eq_true _ _).mp hb
      simpa using this.2
    exact hid2 e hmem this
  rw [h1]
  unfold lastFind?
  rw [List.find?_eq_none]
  intro e he hb
  have hmem := List.mem_reverse.mp he
  simp only [Bool.and_eq_true, bne_iff_ne, beq_iff_eq] at hb
  exact hta e hmem ⟨hb.1.2, hb.2⟩

/-- The retention pass with no matched ids refreshes `last_checked` on
every record. -/
theorem filterMap_no_matched (books : List Book) (now : String) :
    (books.filterMap fun e =>
        if List.contains [] e.id then none
        else some { e with last_checked := now }) =
      books.map fun e => { e with last_checked := now } := by
  induction books with
  | nil => rfl
  | cons hd tl ih =>
    rw [List.filterMap_cons]
    have hc : (List.contains [] hd.id) = false := rfl
    rw [hc]
    simp [ih]
    exact congrFun (List.filterMap_eq_map _) tl

/-- Reconciling a single unmatched candidate prepends it (with the
status recompute applied) and refreshes the rest. -/
theorem update_single_new {st : Store} {c : Book}
    (hm : matchExisting st c = none) (now : String) (today : Date) :
    (update_release_schedules st [c] now today).books =
      update_book_status today c :: (st.books.map fun e =>
        update_book_status today { e with last_checked := now }) := by
  simp only [update_release_schedules, processNew, hm, filterMap_no_matched,
    List.cons_append, List.nil_append, List.map_cons, List.map_map]
  rfl

/-- A conditional notification step never touches a head record that no
batch entry targets. -/
theorem condApply_head {c : Book} {t : List Book} (cond : Prop)
    [Decidable cond] (mkEv : Book → NEvent) (batch : List Book)
    (hb : ∀ b ∈ batch, b.id ≠ c.id) :
    ∃ u, (if cond then applyEvents Book.id mkEv batch (c :: t)
        else c :: t) = c :: u ∧
      u.map Book.id = t.map Book.id := by
  by_cases h : cond
  · rw [if_pos h, applyEvents_head batch t hb]
    exact ⟨_, rfl, applyEvents_ids batch t⟩
  · rw [if_neg h]
    exact ⟨t, rfl, rfl⟩

/-- `send_notifications` with a failing discovery send, no date
changes, and a dateless head record targeted by no other id leaves the
head untouched at the front and preserves the remaining ids. -/
theorem send_notifications_head (S : Store) (newD : List Book)
    (fl : SendFlags) (today : Date) (now : String) (c : Book)
    (rest : List Book) (hS : S.books = c :: rest)
    (hdisc : fl.discovery = false)
    (hpd : parse_date_field c.release_date = none)
    (hids : ∀ b ∈ rest, b.id ≠ c.id) :
    ∃ t, (send_notifications S newD [] fl today now).books = c :: t ∧
      t.map Book.id = rest.map Book.id := by
  have hcid : c.id ∉ rest.map Book.id := by
    intro hmem
    obtain ⟨b, hb, hbid⟩ := List.mem_map.mp hmem
    exact hids b hb hbid
  simp only [send_notifications, hS]
  have hc1 : ¬ (¬ newD.isEmpty = true ∧ fl.discovery = true) := by
    rintro ⟨-, h2⟩
    rw [hdisc] at h2
    exact Bool.false_ne_true h2
  rw [if_neg hc1]
  have hc2 : ¬ (¬ (List.isEmpty ([] : List DateChange)) = true ∧
      fl.dateChange = true) := by
    rintro ⟨h1, -⟩
    exact h1 rfl
  rw [if_neg hc2]
  have hremc : ¬ ((fun b => should_send_reminder b today) c = true) := by
    simp [should_send_reminder_of_parse_none hpd]
  rw [List.filter_cons_of_neg (p := fun b => should_send_reminder b today)
    (a := c) (l := rest) hremc]
  obtain ⟨t3, h3, h3ids⟩ :=
    condApply_head (c := c) (t := rest)
      (¬ (rest.filter fun b => should_send_reminder b today).isEmpty = true ∧
        fl.reminder = true)
      (fun _ => ⟨"reminder", now, none, none⟩)
      (rest.filter fun b => should_send_reminder b today)
      (fun b hb => hids b (List.mem_filter.mp hb).1)
  rw [h3]
  have hrelc : ¬ ((fun b => should_send_release_day_alert b today) c = true) := by
    simp [should_send_release_day_of_parse_none hpd]
  rw [List.filter_cons_of_neg (p := fun b => should_send_release_day_alert b today)
    (a := c) (l := t3) hrelc]
  have ht3 : ∀ b ∈ t3.filter (fun b => should_send_release_day_alert b today),
      b.id ≠ c.id := by
    intro b hb hbid
    have hbmem : b ∈ t3 := (List.mem_filter.mp hb).1
    have hin : b.id ∈ t3.map Book.id := List.mem_map_of_mem _ hbmem
    rw [h3ids, hbid] at hin
    exact hcid hin
  obtain ⟨t4, h4, h4ids⟩ :=
    condApply_head (c := c) (t := t3)
      (¬ (t3.filter fun b => should_send_release_day_alert b today).isEmpty =
          true ∧ fl.releaseDay = true)
      (fun _ => ⟨"release_day", now, none, none⟩)
      (t3.filter fun b => should_send_release_day_alert b today) ht3
  rw [h4]
  exact ⟨t4, rfl, by rw [h4ids, h3ids]⟩

/-- Cleanup keeps a dateless head record at the front. -/
theorem cleanup_books_head {S : Store} {c : Book} {t : List Book}
    (today : Date) (hS : S.books = c :: t)
    (hpd : parse_date_field c.release_date = none) :
    ∃ u, (cleanup_old_releases S today).books = c :: u := by
  simp only [cleanup_old_releases, hS]
  rw [List.filter_cons_of_pos (by simp [keptByCleanup, hpd])]
  exact ⟨_, rfl⟩

/-- A record at the head of the store is found by its truthy id. -/
theorem find_existing_of_books_head {c : Book} {S : Store} {tl : List Book}
    (hid : c.id ≠ "") (hS : S.books = c :: tl) :
    find_existing_book c S = some c := by
  simp only [find_existing_book, if_pos hid, hS]
  rw [List.find?_cons_of_pos _ (by simp)]

/-- Candidate fixture for C4: a new, dateless discovery. -/
def cb4 : Book := mkBook "an_author_new_book" "New Book" "An Author" .pynone

/-- Send flags of a cycle whose discovery batch send fails. -/
def flNoDiscovery : SendFlags := ⟨false, true, true, true⟩


/-! ### How a notification pass changes the book list: records keep
their order, ids and data fields; only `notifications_sent` grows, by
events whose types come from the pass. -/

/-- One record after a notification pass: the same record with some
events of the allowed types appended. -/
def evApp (T : List String) (b q : Book) : Prop :=
  ∃ evs, q = { b with notifications_sent := b.notifications_sent ++ evs } ∧
    ∀ ev ∈ evs, ev.ntype ∈ T

/-- A book list after a notification pass: record-wise `evApp`. -/
def evolves (T : List String) (l q : List Book) : Prop :=
  List.Forall₂ (evApp T) l q

/-- `evApp` is reflexive. -/
theorem evApp_refl {T : List String} (b : Book) : evApp T b b :=
  ⟨[], by simp, by simp⟩

/-- `evolves` is reflexive. -/
theorem evolves_refl {T : List String} (l : List Book) : evolves T l l :=
  List.forall₂_same.mpr fun b _ => evApp_refl b

/-- `evApp` composes. -/
theorem evApp_trans {T : List String} {a b q : Book} (h1 : evApp T a b)
    (h2 : evApp T b q) : evApp T a q := by
  obtain ⟨e1, rfl, t1⟩ := h1
  obtain ⟨e2, rfl, t2⟩ := h2
  refine ⟨e1 ++ e2, ?_, ?_⟩
  · rw [List.append_assoc]
  · intro ev hev
    rcases List.mem_append.mp hev with h | h
    · exact t1 ev h
    · exact t2 ev h

/-- `evolves` composes. -/
theorem evolves_trans {T : List String} :
    ∀ {a b q : List Book}, evolves T a b → evolves T b q → evolves T a q := by
  intro a b q h1 h2
  induction h1 generalizing q with
  | nil =>
    cases h2
    exact List.Forall₂.nil
  | cons hab htl ih =>
    cases h2 with
    | cons hbc htl2 => exact List.Forall₂.cons (evApp_trans hab hbc) (ih htl2)

/-- `appendEventFirst` is an `evApp`-evolution. -/
theorem appendEventFirst_evolves {T : List String} {ev : NEvent}
    (bid : String) (l : List Book) (hT : ev.ntype ∈ T) :
    evolves T l (appendEventFirst bid ev l) := by
  induction l with
  | nil => exact List.Forall₂.nil
  | cons hd tl ih =>
    by_cases h : hd.id = bid
    · simp only [appendEventFirst, if_pos h]
      refine List.Forall₂.cons ⟨[ev], rfl, ?_⟩ (evolves_refl tl)
      intro e' he'
      rw [List.mem_singleton.mp he']
      exact hT
    · simp only [appendEventFirst, if_neg h]
      exact List.Forall₂.cons (evApp_refl hd) ih

/-- `applyEvents` is an `evApp`-evolution when every event the batch
produces has an allowed type. -/
theorem applyEvents_evolves {T : List String} {getId : α → String}
    {mkEv : α → NEvent} (batch : List α)
    (hT : ∀ x ∈ batch, (mkEv x).ntype ∈ T) :
    ∀ l, evolves T l (applyEvents getId mkEv batch l) := by
  induction batch with
  | nil => intro l; exact evolves_refl l
  | cons hd tl ih =>
    intro l
    have h1 : evolves T l (appendEventFirst (getId hd) (mkEv hd) l) :=
      appendEventFirst_evolves _ _ (hT hd (List.mem_cons_self _ _))
    have h2 := ih (fun x hx => hT x (List.mem_cons_of_mem _ hx))
      (appendEventFirst (getId hd) (mkEv hd) l)
    exact evolves_trans h1 h2

/-- A conditional notification step with an empty batch or a failed
send leaves the book list unchanged. -/
theorem step_forced_id (cond : Prop) [Decidable cond] (getId : α → String)
    (mkEv : α → NEvent) (batch : List α) (l : List Book)
    (h : batch = [] ∨ ¬ cond) :
    (if cond then applyEvents getId mkEv batch l else l) = l := by
  rcases h with h | h
  · subst h
    by_cases hc : cond
    · rw [if_pos hc]; rfl
    · rw [if_neg hc]
  · rw [if_neg h]

/-- A conditional notification step is an `evApp`-evolution. -/
theorem step_evolves {T : List String} (cond : Prop) [Decidable cond]
    {getId : α → String} {mkEv : α → NEvent} (batch : List α)
    (l : List Book) (hT : ∀ x ∈ batch, (mkEv x).ntype ∈ T) :
    evolves T l (if cond then applyEvents getId mkEv batch l else l) := by
  by_cases h : cond
  · rw [if_pos h]
    exact applyEvents_evolves batch hT l
  · rw [if_neg h]
    exact evolves_refl l

/-- When the discovery batch is empty or its send fails, and likewise
for date changes, `send_notifications` only appends `reminder` and
`release_day` events: order, ids and data fields are untouched. -/
theorem send_notifications_evolves (S : Store) (newD : List Book)
    (dcs : List DateChange) (fl : SendFlags) (today : Date) (now : String)
    (h1 : newD = [] ∨ fl.discovery = false)
    (h2 : dcs = [] ∨ fl.dateChange = false) :
    evolves ["reminder", "release_day"] S.books
      (send_notifications S newD dcs fl today now).books := by
  have h1' : newD = [] ∨ ¬ (¬ newD.isEmpty = true ∧ fl.discovery = true) := by
    rcases h1 with h | h
    · exact .inl h
    · refine .inr fun hc => ?_
      rw [h] at hc
      exact Bool.false_ne_true hc.2
  have h2' : dcs = [] ∨ ¬ (¬ dcs.isEmpty = true ∧ fl.dateChange = true) := by
    rcases h2 with h | h
    · exact .inl h
    · refine .inr fun hc => ?_
      rw [h] at hc
      exact Bool.false_ne_true hc.2
  simp only [send_notifications]
  rw [step_forced_id (¬ newD.isEmpty = true ∧ fl.discovery = true) Book.id
    (fun _ => (⟨"discovery", now, none, none⟩ : NEvent)) newD S.books h1']
  rw [step_forced_id (¬ dcs.isEmpty = true ∧ fl.dateChange = true)
    (fun ch => ch.book.id)
    (fun ch =>
      (⟨"date_change", now, some (pyStr ch.old_date),
        some (pyStr ch.new_date)⟩ : NEvent))
    dcs S.books h2']
  exact evolves_trans (step_evolves _ _ _ (by simp))
    (step_evolves _ _ _ (by simp))

/-- Shape of an evolution of a cons cell. -/
theorem evolves_cons_inv {T : List String} {b : Book} {t q : List Book}
    (h : evolves T (b :: t) q) :
    ∃ p u, q = p :: u ∧ evApp T b p ∧ evolves T t u := by
  cases h with
  | cons h1 h2 => exact ⟨_, _, rfl, h1, h2⟩

/-- The fields an `evApp`-evolution preserves, and what it appends. -/
theorem evApp_fields {T : List String} {b q : Book} (h : evApp T b q) :
    q.id = b.id ∧ q.release_date = b.release_date ∧
    ∃ evs, q.notifications_sent = b.notifications_sent ++ evs ∧
      ∀ ev ∈ evs, ev.ntype ∈ T := by
  obtain ⟨evs, rfl, ht⟩ := h
  exact ⟨rfl, rfl, evs, rfl, ht⟩

/-- The retention test depends only on `release_date`. -/
theorem keptByCleanup_congr {b q : Book} (today : Date)
    (h : b.release_date = q.release_date) :
    keptByCleanup today b = keptByCleanup today q := by
  unfold keptByCleanup
  rw [h]

/-- Cleanup keeps a head record that passes the retention test. -/
theorem cleanup_kept_head {S : Store} {b : Book} {t : List Book}
    (today : Date) (hS : S.books = b :: t)
    (hk : keptByCleanup today b = true) :
    ∃ u, (cleanup_old_releases S today).books = b :: u := by
  simp only [cleanup_old_releases, hS]
  rw [List.filter_cons_of_pos hk]
  exact ⟨_, rfl⟩

/-- A head record with the candidate's truthy id is what
`find_existing_book` returns. -/
theorem find_existing_of_head_id {c q : Book} {S : Store} {u : List Book}
    (hid : c.id ≠ "") (hS : S.books = q :: u) (hq : q.id = c.id) :
    find_existing_book c S = some q := by
  simp only [find_existing_book, if_pos hid, hS]
  rw [List.find?_cons_of_pos _ (by simp [hq])]

/-- Equal `release_date` values are never reported as a date change. -/
theorem has_date_changed_eq_false {b q : Book}
    (h : q.release_date = b.release_date) : has_date_changed b q = false := by
  unfold has_date_changed
  rw [h]
  exact bne_self_eq_false _

/-- Reconciling a single matched candidate puts the merged record (with
the status recompute applied) at the head. -/
theorem update_single_matched {st : Store} {c e : Book}
    (hm : matchExisting st c = some e) (now : String) (today : Date) :
    ∃ rest, (update_release_schedules st [c] now today).books =
      update_book_status today (mergeBooks e c now) :: rest := by
  simp only [update_release_schedules, processNew, hm, List.cons_append,
    List.nil_append, List.map_cons]
  exact ⟨_, rfl⟩

/-- Stored record fixture for the C4 date-change trace. -/
def exDC : Book := mkBook "idX" "Series Book" "An Author" (.str "2025-12-09")

/-- The same book scraped again with a moved release date. -/
def cnDC : Book := mkBook "idX" "Series Book" "An Author" (.str "2026-01-15")

/-- Send flags of a cycle whose date-change batch send fails. -/
def flNoDateChange : SendFlags := ⟨true, false, true, true⟩

/-- C4 counterexample: the claim says a record whose discovery or
date_change send fails stays eligible and the notification is retried
every subsequent cycle until a send succeeds.  Discovery half: cycle 1
discovers `cb4` on an empty store, the discovery send fails and no
event is recorded — yet the record was merged into the store, so cycle
2's identical scrape matches it as existing and the discovery batch is
empty.  Date-change half: cycle 1 detects `exDC`'s date moving to
`cnDC`'s, the date-change send fails and no event is recorded — yet the
merge stored the new date, so cycle 2's identical scrape finds no date
difference and the date-change batch is empty.  Neither is retried. -/
theorem c4_counterexample :
    ((runCycleStore ⟨[], "t0"⟩ [cb4] flNoDiscovery ⟨2025, 10, 12⟩ "t1").books.map
        fun b => b.notifications_sent) = [[]] ∧
    discoveryBatch
        (runCycleStore ⟨[], "t0"⟩ [cb4] flNoDiscovery ⟨2025, 10, 12⟩ "t1")
        [cb4] = [] ∧
    dateChangeBatch ⟨[exDC], "t0"⟩ [cnDC] =
      [⟨cnDC, .str "2025-12-09", .str "2026-01-15"⟩] ∧
    ((runCycleStore ⟨[exDC], "t0"⟩ [cnDC] flNoDateChange ⟨2025, 10, 12⟩
        "t1").books.map fun b => b.notifications_sent) = [[]] ∧
    dateChangeBatch
        (runCycleStore ⟨[exDC], "t0"⟩ [cnDC] flNoDateChange ⟨2025, 10, 12⟩ "t1")
        [cnDC] = [] := by
  decide

/-- C4 amended: when a discovery or date_change send fails, no event of
that kind is recorded, but the record does not remain eligible, because
reconciliation persists the candidate's data in the same cycle
regardless of send success.  Discovery half: an unmatched candidate
(with a truthy id, surviving the cycle's cleanup) is stored, carries no
discovery event, and the next cycle's identical scrape matches it as
existing, so the discovery batch is empty — the notification is never
retried.  Date-change half: a candidate matching a stored record by id
with a changed date produces a date-change entry this cycle, but the
merge stores the new date, the record gains no date-change event, and
the next cycle's identical scrape detects no difference, so the
date-change batch is empty — the notification is never retried. -/
theorem c4_amended :
    (∀ (st : Store) (c : Book) (fl : SendFlags) (today : Date) (now : String),
      fl.discovery = false → c.id ≠ "" → c.notifications_sent = [] →
      find_existing_book c st = none → keptByCleanup today c = true →
      ∃ b tl, (runCycleStore st [c] fl today now).books = b :: tl ∧
        b.id = c.id ∧ b.release_date = c.release_date ∧
        (∀ ev ∈ b.notifications_sent, ¬ ev.ntype = "discovery") ∧
        discoveryBatch (runCycleStore st [c] fl today now) [c] = []) ∧
    (∀ (st : Store) (c e : Book) (fl : SendFlags) (today : Date) (now : String),
      fl.dateChange = false → c.id ≠ "" →
      find_existing_book c st = some e → matchExisting st c = some e →
      e.id = c.id → has_date_changed c e = true →
      keptByCleanup today c = true →
      dateChangeBatch st [c] = [⟨c, e.release_date, c.release_date⟩] ∧
      ∃ b tl, (runCycleStore st [c] fl today now).books = b :: tl ∧
        b.id = c.id ∧ b.release_date = c.release_date ∧
        (∀ ev ∈ b.notifications_sent, ev.ntype = "date_change" →
          ev ∈ e.notifications_sent) ∧
        dateChangeBatch (runCycleStore st [c] fl today now) [c] = []) := by
  constructor
  · intro st c fl today now hdisc hid hns hfe hkeep
    have hm := matchExisting_none hid hfe
    have hupd := update_single_new hm now today
    have hev := send_notifications_evolves
      (update_release_schedules st [c] now today) (discoveryBatch st [c])
      (dateChangeBatch st [c]) fl today now (.inr hdisc)
      (.inl (by simp [dateChangeBatch, hfe]))
    rw [hupd] at hev
    obtain ⟨q, u, hqu, hq, -⟩ := evolves_cons_inv hev
    obtain ⟨hqid, hqrd, evs, hqns, hevs⟩ := evApp_fields hq
    obtain ⟨s, hs⟩ := update_book_status_fields today c
    have hcid : (update_book_status today c).id = c.id := by rw [hs]
    have hcrd : (update_book_status today c).release_date = c.release_date := by
      rw [hs]
    have hcns : (update_book_status today c).notifications_sent =
        c.notifications_sent := by rw [hs]
    have hkq : keptByCleanup today q = true := by
      have hqc : q.release_date = c.release_date := by rw [hqrd, hcrd]
      rw [keptByCleanup_congr today hqc.symm] at hkeep
      exact hkeep
    obtain ⟨u2, hu2⟩ := cleanup_kept_head today hqu hkq
    have hfin : (runCycleStore st [c] fl today now).books = q :: u2 := by
      simp only [runCycleStore]
      exact hu2
    refine ⟨q, u2, hfin, by rw [hqid, hcid], by rw [hqrd, hcrd], ?_, ?_⟩
    · intro ev hev' hdis
      rw [hqns, hcns, hns, List.nil_append] at hev'
      have := hevs ev hev'
      rw [hdis] at this
      simp at this
    · have hfind := find_existing_of_head_id hid hfin (by rw [hqid, hcid])
      simp [discoveryBatch, hfind]
  · intro st c e fl today now hfl hid hfe hm heid hdc hkeep
    refine ⟨by simp [dateChangeBatch, hfe, hdc], ?_⟩
    obtain ⟨rest, hupd⟩ := update_single_matched hm now today
    have hev := send_notifications_evolves
      (update_release_schedules st [c] now today) (discoveryBatch st [c])
      (dateChangeBatch st [c]) fl today now
      (.inl (by simp [discoveryBatch, hfe])) (.inr hfl)
    rw [hupd] at hev
    obtain ⟨q, u, hqu, hq, -⟩ := evolves_cons_inv hev
    obtain ⟨hqid, hqrd, evs, hqns, hevs⟩ := evApp_fields hq
    obtain ⟨s, hs⟩ := update_book_status_fields today (mergeBooks e c now)
    have hmid : (update_book_status today (mergeBooks e c now)).id = c.id := by
      rw [hs]
      exact heid
    have hmrd : (update_book_status today (mergeBooks e c now)).release_date =
        c.release_date := by
      rw [hs]
      rfl
    have hmns : (update_book_status today (mergeBooks e c now)).notifications_sent =
        e.notifications_sent := by
      rw [hs]
      rfl
    have hkq : keptByCleanup today q = true := by
      have hqc : q.release_date = c.release_date := by rw [hqrd, hmrd]
      rw [keptByCleanup_congr today hqc.symm] at hkeep
      exact hkeep
    obtain ⟨u2, hu2⟩ := cleanup_kept_head today hqu hkq
    have hfin : (runCycleStore st [c] fl today now).books = q :: u2 := by
      simp only [runCycleStore]
      exact hu2
    refine ⟨q, u2, hfin, by rw [hqid, hmid], by rw [hqrd, hmrd], ?_, ?_⟩
    · intro ev hev' hty
      rw [hqns, hmns] at hev'
      rcases List.mem_append.mp hev' with h | h
      · exact h
      · have := hevs ev h
        rw [hty] at this
        simp at this
    · have hfind := find_existing_of_head_id hid hfin (by rw [hqid, hmid])
      have hnc : has_date_changed c q = false :=
        has_date_changed_eq_false (by rw [hqrd, hmrd])
      simp [dateChangeBatch, hfind, hnc]

/-- C4 witness: both halves of the amended claim at concrete stores —
the dateless new discovery `cb4` with a failed discovery send, and the
dated record `exDC` whose date moves to `cnDC`'s with a failed
date-change send. -/
theorem c4_witness :
    (∃ b tl, (runCycleStore ⟨[], "t0"⟩ [cb4] flNoDiscovery ⟨2025, 10, 12⟩
        "t1").books = b :: tl ∧
      b.id = cb4.id ∧ b.release_date = cb4.release_date ∧
      (∀ ev ∈ b.notifications_sent, ¬ ev.ntype = "discovery") ∧
      discoveryBatch
        (runCycleStore ⟨[], "t0"⟩ [cb4] flNoDiscovery ⟨2025, 10, 12⟩ "t1")
        [cb4] = []) ∧
    (dateChangeBatch ⟨[exDC], "t0"⟩ [cnDC] =
        [⟨cnDC, exDC.release_date, cnDC.release_date⟩] ∧
      ∃ b tl, (runCycleStore ⟨[exDC], "t0"⟩ [cnDC] flNoDateChange
          ⟨2025, 10, 12⟩ "t1").books = b :: tl ∧
        b.id = cnDC.id ∧ b.release_date = cnDC.release_date ∧
        (∀ ev ∈ b.notifications_sent, ev.ntype = "date_change" →
          ev ∈ exDC.notifications_sent) ∧
        dateChangeBatch
          (runCycleStore ⟨[exDC], "t0"⟩ [cnDC] flNoDateChange ⟨2025, 10, 12⟩
            "t1") [cnDC] = []) :=
  ⟨c4_amended.1 ⟨[], "t0"⟩ cb4 flNoDiscovery ⟨2025, 10, 12⟩ "t1" rfl
      (by decide) rfl (by decide) (by decide),
    c4_amended.2 ⟨[exDC], "t0"⟩ cnDC exDC flNoDateChange ⟨2025, 10, 12⟩ "t1"
      rfl (by decide) (by decide) (by decide) rfl (by decide) (by decide)⟩
